import Mathlib

/-!
Verification of the inheritance-bank-analyzer core against its specification.

The Python sources embedded here are `src/lib/importer.py` (balance
validation) and `src/lib/llm_classifier.py` (rule-based and generative
classification).  Pandas tables are modelled as Lean lists of structures;
Python `int` amounts become `Int`; Python dict lookups become functions;
the HTTP boundary of the generative model is modelled as an abstract
response value.
-/

namespace BankAnalyzer

/-- A raw transaction row as consumed by `validate_balance`
(`importer.py`): date (abstracted to an integer ordinal, since only
ordering matters), the two amounts and the printed/OCR balance, all
integers after `load_csv`'s coercion. -/
structure BRow where
  date : Int
  amount_in : Int
  amount_out : Int
  balance : Int
deriving Repr, DecidableEq

/-- A validated row: the original row plus the two columns
`validate_balance` adds (`calc_balance`, `is_balance_error`). -/
structure VRow where
  row : BRow
  calc_balance : Int
  is_balance_error : Bool
deriving Repr, DecidableEq

/-- Two's-complement wraparound of numpy `int64` arithmetic.  The loop of
`validate_balance` computes `prev_balance + amount_in - amount_out` on
numpy `int64` scalars, which wrap modulo `2^64` into `[-2^63, 2^63)`;
since wrapping commutes with addition and subtraction, one wrap of the
exact integer expression models the chained wrapped operations. -/
def wrap64 (x : Int) : Int :=
  (x + 2 ^ 63) % 2 ^ 64 - 2 ^ 63

/-- The validation loop of `validate_balance` (importer.py lines 91-104)
over the rows after the first, carrying `prev_balance`:
`expected = prev_balance + amount_in - amount_out` in `int64` arithmetic;
a mismatch sets the error flag and re-anchors `prev_balance` to the
printed balance, a match carries `expected` forward. -/
def validateLoop (prev : Int) : List BRow → List VRow
  | [] => []
  | r :: rs =>
    let expected := wrap64 (prev + r.amount_in - r.amount_out)
    if expected ≠ r.balance then
      ⟨r, expected, true⟩ :: validateLoop r.balance rs
    else
      ⟨r, expected, false⟩ :: validateLoop expected rs

/-- The validated row built from a predecessor row `p` and current row
`c`: one step of the validation loop, with `prev_balance = p.balance`. -/
def mkV (p c : BRow) : VRow :=
  ⟨c, wrap64 (p.balance + c.amount_in - c.amount_out),
    decide (wrap64 (p.balance + c.amount_in - c.amount_out) ≠ c.balance)⟩

/-- After any step of the loop, the carried `prev_balance` is the printed
balance of the row just processed (a mismatch re-anchors to it, a match
carries `expected` which then equals it). -/
theorem validateLoop_cons (prev : Int) (r : BRow) (rs : List BRow) :
    validateLoop prev (r :: rs) =
      ⟨r, wrap64 (prev + r.amount_in - r.amount_out),
        decide (wrap64 (prev + r.amount_in - r.amount_out) ≠ r.balance)⟩ ::
        validateLoop r.balance rs := by
  by_cases h : wrap64 (prev + r.amount_in - r.amount_out) = r.balance
  · simp [validateLoop, h]
  · simp [validateLoop, h]

theorem validateLoop_eq_zipWith (rs : List BRow) :
    ∀ a : BRow, validateLoop a.balance rs = List.zipWith mkV (a :: rs) rs := by
  induction rs with
  | nil => intro a; rfl
  | cons r rs ih =>
    intro a
    rw [validateLoop_cons]
    simp only [List.zipWith]
    rw [ih r]
    rfl

/-- `needle` is a leading segment of `hay` (character-by-character). -/
def leadMatch : List Char → List Char → Bool
  | [], _ => true
  | _ :: _, [] => false
  | a :: as, b :: bs => (a == b) && leadMatch as bs

/-- Contiguous-substring test on character lists: Python's `needle in hay`
for strings. -/
def subMatch (needle : List Char) : List Char → Bool
  | [] => needle.isEmpty
  | c :: t => leadMatch needle (c :: t) || subMatch needle t

/-- Python's `kw in text` substring containment on strings, as used by
`classify_by_rules` and `call_ollama`. -/
def strContains (hay kw : String) : Bool :=
  subMatch kw.data hay.data

/-- The four keyword lists of `load_classification_patterns`
(llm_classifier.py lines 6-44), one per category. -/
structure Patterns where
  life : List String
  asset : List String
  gift : List String
  other : List String
deriving Repr, DecidableEq

/-- `default_patterns` of `load_classification_patterns`
(llm_classifier.py lines 10-31), returned verbatim when no configuration
file overrides the lists.  (Reading `config.CONFIG_FILE` is file I/O; the
pattern set is a parameter of the embedded functions.) -/
def default_patterns : Patterns where
  life := ["イオン", "セブン", "ローソン", "ファミマ", "スーパー", "マート",
    "電気", "ガス", "水道", "東京電力", "東電", "関西電力", "関電",
    "NTT", "ドコモ", "DOCOMO", "ソフトバンク", "au", "通信", "電話",
    "NHK", "薬局", "ドラッグ", "病院", "医院", "クリニック", "介護",
    "ガソリン", "ENEOS", "出光", "昭和シェル",
    "マクドナルド", "スターバックス", "スタバ", "コンビニ"]
  asset := ["証券", "野村", "大和", "SMBC", "みずほ証券", "楽天証券", "SBI",
    "投資信託", "株式", "債券", "ファンド",
    "生命保険", "損保", "保険", "共済", "かんぽ", "日本生命", "第一生命",
    "定期預金", "定期", "積立"]
  gift := ["フリコミ", "振込", "送金"]
  other := ["手数料", "利息", "ATM", "時間外", "引出", "預入"]

/-- `classify_by_rules` (llm_classifier.py lines 46-81), with the loaded
pattern set passed explicitly.  `text_lower` is computed (line 50) but,
as in the source, never consulted: every keyword test is substring
containment on the raw `text`.  The transfer tier decides by
`amount_out >= 1_000_000`. -/
def classify_by_rules (patterns : Patterns) (text : String)
    (amount_out amount_in : Int) : String :=
  let text_lower := text.toLower
  if patterns.life.any (fun kw => strContains text kw) then "生活費"
  else if patterns.asset.any (fun kw => strContains text kw) then "資産形成"
  else if patterns.gift.any (fun kw => strContains text kw) then
    if amount_out ≥ 1000000 then "贈与疑い" else "生活費"
  else if patterns.other.any (fun kw => strContains text kw) then "その他"
  else "その他"

/-- C4: a text containing at least one living-expense keyword is always
classified 生活費, whatever the amounts and whatever other categories'
keywords it also contains: the living-expense tier is evaluated first. -/
theorem classify_by_rules_life_first (p : Patterns) (text : String)
    (amount_out amount_in : Int)
    (h : ∃ kw ∈ p.life, strContains text kw = true) :
    classify_by_rules p text amount_out amount_in = "生活費" := by
  have hany : p.life.any (fun kw => strContains text kw) = true := by
    rw [List.any_eq_true]
    obtain ⟨kw, hmem, hc⟩ := h
    exact ⟨kw, hmem, hc⟩
  unfold classify_by_rules
  rw [hany]
  rfl

/-- Concrete instance for C4: 「イオン」 appears, so the memo is 生活費 even
with a seven-figure outgoing amount and a transfer keyword present. -/
theorem classify_by_rules_life_first_witness :
    classify_by_rules default_patterns "イオンへ振込" 2000000 0 = "生活費" :=
  classify_by_rules_life_first default_patterns "イオンへ振込" 2000000 0
    ⟨"イオン", by decide, by decide⟩

/-- C5: a text matching a transfer keyword but no living-expense and no
asset-formation keyword is classified by amount: 贈与疑い exactly when
`amount_out ≥ 1,000,000`, otherwise 生活費. -/
theorem classify_by_rules_transfer_amount (p : Patterns) (text : String)
    (amount_out amount_in : Int)
    (hl : ∀ kw ∈ p.life, strContains text kw = false)
    (ha : ∀ kw ∈ p.asset, strContains text kw = false)
    (hg : ∃ kw ∈ p.gift, strContains text kw = true) :
    classify_by_rules p text amount_out amount_in =
      (if amount_out ≥ 1000000 then "贈与疑い" else "生活費") := by
  have hl' : p.life.any (fun kw => strContains text kw) = false := by
    rw [List.any_eq_false]
    intro kw hkw
    simp [hl kw hkw]
  have ha' : p.asset.any (fun kw => strContains text kw) = false := by
    rw [List.any_eq_false]
    intro kw hkw
    simp [ha kw hkw]
  have hg' : p.gift.any (fun kw => strContains text kw) = true := by
    rw [List.any_eq_true]
    obtain ⟨kw, hmem, hc⟩ := hg
    exact ⟨kw, hmem, hc⟩
  unfold classify_by_rules
  rw [hl', ha', hg']
  simp

/-- Concrete instances for C5: a plain wire-transfer memo is 贈与疑い at
2,000,000 out and 生活費 at 50,000 out. -/
theorem classify_by_rules_transfer_amount_witness :
    classify_by_rules default_patterns "振込 ヤマダタロウ" 2000000 0 = "贈与疑い" ∧
    classify_by_rules default_patterns "振込 ヤマダタロウ" 50000 0 = "生活費" := by
  constructor
  · have := classify_by_rules_transfer_amount default_patterns "振込 ヤマダタロウ"
      2000000 0 (by decide) (by decide) ⟨"振込", by decide, by decide⟩
    simpa using this
  · have := classify_by_rules_transfer_amount default_patterns "振込 ヤマダタロウ"
      50000 0 (by decide) (by decide) ⟨"振込", by decide, by decide⟩
    simpa using this

/-- C10: keyword matching is case-sensitive substring containment on the
raw text (`text_lower` is dead): the lowercase rendering of the keyword
「DOCOMO」 is not matched by it, and a memo that matches no keyword at all
falls through to その他, while the exact-case memo is 生活費. -/
theorem classify_by_rules_case_sensitive :
    ("DOCOMO" ∈ default_patterns.life) ∧
    "DOCOMO".data.map Char.toLower = "docomo".data ∧
    strContains "docomo" "DOCOMO" = false ∧
    classify_by_rules default_patterns "docomo" 0 0 = "その他" ∧
    classify_by_rules default_patterns "DOCOMO" 0 0 = "生活費" := by
  refine ⟨by decide, ?_, by decide, by decide, by decide⟩
  decide

/-- A transaction row as seen by `classify_transactions`: the memo
(`None` models a NaN description), the two amounts and the nullable
category (`None` models NaN/null). -/
structure TRow where
  description : Option String
  amount_out : Int
  amount_in : Int
  category : Option String
deriving Repr, DecidableEq

/-- The target mask of `classify_transactions` (llm_classifier.py
line 109): description present, non-empty, and category still null. -/
def isTarget (r : TRow) : Bool :=
  match r.description with
  | some s => (s != "") && r.category.isNone
  | none => false

/-- `target_df = df[target_mask]` (line 110). -/
def targetRows (rows : List TRow) : List TRow :=
  rows.filter isTarget

/-- The description column of the target rows, in table order. -/
def descList (rows : List TRow) : List String :=
  (targetRows rows).filterMap (fun r => r.description)

/-- First-occurrence deduplication, the semantics of pandas
`Series.unique()` (line 122): keep each value the first time it is seen. -/
def dedupFirstAux (seen : List String) : List String → List String
  | [] => []
  | d :: ds =>
    if d ∈ seen then dedupFirstAux seen ds
    else d :: dedupFirstAux (d :: seen) ds

/-- `unique_descriptions = target_df["description"].unique()` (line 122). -/
def uniqueDescs (rows : List TRow) : List String :=
  dedupFirstAux [] (descList rows)

/-- The rule category computed for one unique description in AI mode
(lines 126-127): the first target row bearing that description supplies
the amounts. -/
def ruleCategoryFirst (p : Patterns) (rows : List TRow) (d : String) : String :=
  match (targetRows rows).find? (fun r => r.description == some d) with
  | some r => classify_by_rules p d r.amount_out r.amount_in
  | none => "その他"  -- unreachable: every unique description has a target row

/-- The AI-mode loop over `unique_descriptions` (lines 124-135),
instrumented: it returns the `classification_map` entries in insertion
order together with the number of `classify_by_rules` invocations and the
number of `call_ollama` invocations the loop performs. -/
def ollamaLoop (p : Patterns) (oll : String → String) (rows : List TRow) :
    List String → List (String × String) × Nat × Nat
  | [] => ([], 0, 0)
  | d :: ds =>
    let rc := ruleCategoryFirst p rows d
    let c := if rc = "その他" then oll d else rc
    let mc : Nat := if rc = "その他" then 1 else 0
    let rest := ollamaLoop p oll rows ds
    ((d, c) :: rest.1, rest.2.1 + 1, rest.2.2 + mc)

/-- The rule-mode loop over `target_df.index` (lines 140-147),
instrumented: the `classification_map` entries in insertion order (one
per target row, so a repeated description re-inserts its key) together
with the number of `classify_by_rules` invocations. -/
def ruleLoop (p : Patterns) : List TRow → List (String × String) × Nat
  | [] => ([], 0)
  | r :: rs =>
    let d := r.description.getD ""
    let c := classify_by_rules p d r.amount_out r.amount_in
    let rest := ruleLoop p rs
    ((d, c) :: rest.1, rest.2 + 1)

/-- Lookup in a `classification_map` built by repeated dict assignment:
the latest insertion of a key wins, a missing key yields `none` (pandas
`.map` produces NaN there). -/
def lookupMap (entries : List (String × String)) (d : String) : Option String :=
  match entries with
  | [] => none
  | e :: es =>
    match lookupMap es d with
    | some v => some v
    | none => if e.1 == d then some e.2 else none

/-- The classification map built by the selected loop: AI mode walks the
unique descriptions, rule mode walks the target rows. -/
def mapEntries (p : Patterns) (oll : String → String) (useOllama : Bool)
    (rows : List TRow) : List (String × String) :=
  if useOllama then (ollamaLoop p oll rows (uniqueDescs rows)).1
  else (ruleLoop p (targetRows rows)).1

/-- The masked assignment
`df.loc[target_mask, "category"] = df.loc[target_mask, "description"].map(classification_map)`
(line 150) on one row: a target row's category becomes the map's value at
its description, every other row is untouched. -/
def applyMap (entries : List (String × String)) (r : TRow) : TRow :=
  if isTarget r then
    { r with category := lookupMap entries (r.description.getD "") }
  else r

/-- `classify_transactions` (llm_classifier.py lines 93-152).  The
pattern set, the generative model (a function from memo text to its
returned category) and the mode flag are explicit parameters; passing
`use_ollama=None` in the source merely probes endpoint liveness to pick
the flag, which is network I/O outside the table transformation.  Empty
table and empty target set return the table unchanged; otherwise the
selected loop builds the classification map and every target row's
category is set to the map's value at its description. -/
def classify_transactions (p : Patterns) (oll : String → String)
    (useOllama : Bool) (rows : List TRow) : List TRow :=
  if rows.isEmpty then rows
  else if (targetRows rows).isEmpty then rows
  else rows.map (applyMap (mapEntries p oll useOllama rows))

theorem ollamaLoop_cons (p : Patterns) (oll : String → String)
    (rows : List TRow) (d : String) (ds : List String) :
    ollamaLoop p oll rows (d :: ds) =
      ((d, if ruleCategoryFirst p rows d = "その他" then oll d
           else ruleCategoryFirst p rows d) :: (ollamaLoop p oll rows ds).1,
       (ollamaLoop p oll rows ds).2.1 + 1,
       (ollamaLoop p oll rows ds).2.2 +
         (if ruleCategoryFirst p rows d = "その他" then 1 else 0)) := rfl

theorem ruleLoop_cons (p : Patterns) (r : TRow) (rs : List TRow) :
    ruleLoop p (r :: rs) =
      ((r.description.getD "",
        classify_by_rules p (r.description.getD "") r.amount_out r.amount_in)
         :: (ruleLoop p rs).1,
       (ruleLoop p rs).2 + 1) := rfl

theorem lookupMap_cons (e : String × String) (es : List (String × String))
    (d : String) :
    lookupMap (e :: es) d =
      (match lookupMap es d with
       | some v => some v
       | none => if e.1 == d then some e.2 else none) := rfl

theorem lookupMap_ollamaLoop_not_mem (p : Patterns) (oll : String → String)
    (rows : List TRow) (d : String) :
    ∀ ds : List String, d ∉ ds → lookupMap (ollamaLoop p oll rows ds).1 d = none := by
  intro ds
  induction ds with
  | nil => intro _; rfl
  | cons d' ds ih =>
    intro h
    have hd : d ∉ ds := fun hm => h (List.mem_cons_of_mem _ hm)
    have hne : d' ≠ d := fun he => h (he ▸ List.mem_cons_self _ _)
    rw [ollamaLoop_cons, lookupMap_cons, ih hd]
    simp [hne]

/-- Looking a unique description up in the AI-mode classification map
yields the decision computed for it: the rule category when it is not
その他, the generative model's answer otherwise. -/
theorem lookupMap_ollamaLoop_mem (p : Patterns) (oll : String → String)
    (rows : List TRow) (d : String) :
    ∀ ds : List String, d ∈ ds →
      lookupMap (ollamaLoop p oll rows ds).1 d =
        some (if ruleCategoryFirst p rows d = "その他" then oll d
              else ruleCategoryFirst p rows d) := by
  intro ds
  induction ds with
  | nil => intro h; cases h
  | cons d' ds ih =>
    intro h
    rw [ollamaLoop_cons, lookupMap_cons]
    by_cases hmem : d ∈ ds
    · rw [ih hmem]
    · have hd : d = d' := by
        rcases List.mem_cons.mp h with h1 | h2
        · exact h1
        · exact absurd h2 hmem
      rw [lookupMap_ollamaLoop_not_mem p oll rows d ds hmem]
      subst hd
      simp

theorem mem_dedupFirstAux (x : String) :
    ∀ (l : List String) (seen : List String), x ∈ l → x ∉ seen →
      x ∈ dedupFirstAux seen l := by
  intro l
  induction l with
  | nil => intro seen h _; cases h
  | cons d ds ih =>
    intro seen h hseen
    unfold dedupFirstAux
    by_cases hd : d ∈ seen
    · rw [if_pos hd]
      have hx : x ∈ ds := by
        rcases List.mem_cons.mp h with h1 | h2
        · exact absurd (h1.symm ▸ hd) hseen
        · exact h2
      exact ih seen hx hseen
    · rw [if_neg hd]
      by_cases hxd : x = d
      · exact hxd ▸ List.mem_cons_self _ _
      · have hx : x ∈ ds := by
          rcases List.mem_cons.mp h with h1 | h2
          · exact absurd h1 hxd
          · exact h2
        have hns : x ∉ d :: seen := by
          intro hm
          rcases List.mem_cons.mp hm with h3 | h4
          · exact hxd h3
          · exact hseen h4
        exact List.mem_cons_of_mem _ (ih (d :: seen) hx hns)

/-- The description of every target row occurs among the unique
descriptions the AI-mode loop walks. -/
theorem desc_mem_uniqueDescs (rows : List TRow) (r : TRow) (d : String)
    (hr : r ∈ rows) (ht : isTarget r = true) (hd : r.description = some d) :
    d ∈ uniqueDescs rows := by
  have h1 : r ∈ targetRows rows := List.mem_filter.mpr ⟨hr, ht⟩
  have h2 : d ∈ descList rows := by
    unfold descList
    exact List.mem_filterMap.mpr ⟨r, h1, by rw [hd]⟩
  exact mem_dedupFirstAux d (descList rows) [] h2 (by simp)

/-- Looking a target row's description up in the rule-mode classification
map always succeeds (the loop inserted an entry for it). -/
theorem lookupMap_ruleLoop_isSome (p : Patterns) :
    ∀ (trs : List TRow) (r : TRow), r ∈ trs →
      (lookupMap (ruleLoop p trs).1 (r.description.getD "")).isSome = true := by
  intro trs
  induction trs with
  | nil => intro r h; cases h
  | cons r' rs ih =>
    intro r h
    rw [ruleLoop_cons, lookupMap_cons]
    rcases List.mem_cons.mp h with h1 | h2
    · cases hx : lookupMap (ruleLoop p rs).1 (r.description.getD "") with
      | some v => simp
      | none => subst h1; simp
    · have hs := ih r h2
      cases hx : lookupMap (ruleLoop p rs).1 (r.description.getD "") with
      | some v => simp
      | none => rw [hx] at hs; simp at hs

theorem isTarget_false_of_isSome (r : TRow) (h : r.category.isSome = true) :
    isTarget r = false := by
  unfold isTarget
  cases hd : r.description with
  | none => rfl
  | some s =>
    have hn : r.category.isNone = false := by
      cases hc : r.category
      · rw [hc] at h; simp at h
      · rfl
    simp [hn]

theorem applyMap_of_not_target (entries : List (String × String)) (r : TRow)
    (h : isTarget r = false) : applyMap entries r = r := by
  unfold applyMap
  simp [h]

/-- On a non-degenerate table, `classify_transactions` is the masked
per-row map application. -/
theorem classify_transactions_eq_map (p : Patterns) (oll : String → String)
    (m : Bool) (rows : List TRow) (h1 : rows.isEmpty = false)
    (h2 : (targetRows rows).isEmpty = false) :
    classify_transactions p oll m rows =
      rows.map (applyMap (mapEntries p oll m rows)) := by
  unfold classify_transactions
  rw [h1, h2]
  simp

theorem classify_transactions_id_of_no_targets (p : Patterns)
    (oll : String → String) (m : Bool) (rows : List TRow)
    (h : (targetRows rows).isEmpty = true) :
    classify_transactions p oll m rows = rows := by
  unfold classify_transactions
  rw [h]
  simp

/-- Applying the classification map to a target row yields a non-null
category: the map covers every target description, in both modes. -/
theorem lookup_isSome_of_target (p : Patterns) (oll : String → String)
    (m : Bool) (rows : List TRow) (r : TRow) (hr : r ∈ rows)
    (ht : isTarget r = true) :
    (lookupMap (mapEntries p oll m rows) (r.description.getD "")).isSome = true := by
  cases hd : r.description with
  | none =>
    unfold isTarget at ht
    rw [hd] at ht
    cases ht
  | some s =>
    cases m with
    | true =>
      have hmem : s ∈ uniqueDescs rows := desc_mem_uniqueDescs rows r s hr ht hd
      have hres := lookupMap_ollamaLoop_mem p oll rows s (uniqueDescs rows) hmem
      unfold mapEntries
      rw [if_pos rfl]
      show (lookupMap (ollamaLoop p oll rows (uniqueDescs rows)).1 s).isSome = true
      rw [hres]
      rfl
    | false =>
      have h1 : r ∈ targetRows rows := List.mem_filter.mpr ⟨hr, ht⟩
      have hres := lookupMap_ruleLoop_isSome p (targetRows rows) r h1
      rw [hd] at hres
      unfold mapEntries
      rw [if_neg (by simp)]
      exact hres

theorem isTarget_set_category (r : TRow) (c : Option String) :
    isTarget { r with category := c } =
      (match r.description with
       | some s => (s != "") && c.isNone
       | none => false) := rfl

/-- Every row of the output of `classify_transactions` is a non-target:
either it was a non-target already, or it just received a category. -/
theorem isTarget_applyMap_false (p : Patterns) (oll : String → String)
    (m : Bool) (rows : List TRow) (r : TRow) (hr : r ∈ rows) :
    isTarget (applyMap (mapEntries p oll m rows) r) = false := by
  cases ht : isTarget r with
  | false => rw [applyMap_of_not_target _ r ht]; exact ht
  | true =>
    have hsome := lookup_isSome_of_target p oll m rows r hr ht
    have happ : applyMap (mapEntries p oll m rows) r =
        { r with category := lookupMap (mapEntries p oll m rows)
                               (r.description.getD "") } := by
      unfold applyMap
      rw [if_pos ht]
    rw [happ, isTarget_set_category]
    cases hd : r.description with
    | none => rfl
    | some s =>
      rw [hd] at hsome
      have hn : (lookupMap (mapEntries p oll m rows)
          ((some s : Option String).getD "")).isNone = false := by
        cases hx : lookupMap (mapEntries p oll m rows)
            ((some s : Option String).getD "") with
        | none => rw [hx] at hsome; simp at hsome
        | some v => rfl
      show ((s != "") && (lookupMap (mapEntries p oll m rows)
          ((some s : Option String).getD "")).isNone) = false
      rw [hn, Bool.and_false]

/-- C6: in either mode, `classify_transactions` leaves every row with a
non-null category unchanged (category only transitions null → value), and
running it again on its own output — in which every row bearing a
non-empty description now carries a category — changes nothing. -/
theorem classify_transactions_null_to_value (p : Patterns)
    (oll : String → String) (m : Bool) (rows : List TRow) :
    (∀ (i : Nat) (r : TRow), rows[i]? = some r → r.category.isSome = true →
        (classify_transactions p oll m rows)[i]? = some r)
    ∧ classify_transactions p oll m (classify_transactions p oll m rows) =
        classify_transactions p oll m rows := by
  by_cases h1 : rows.isEmpty
  · have hnil : rows = [] := List.isEmpty_iff.mp h1
    subst hnil
    exact ⟨fun i r hi _ => by simp at hi, rfl⟩
  · by_cases h2 : (targetRows rows).isEmpty
    · have hid : classify_transactions p oll m rows = rows :=
        classify_transactions_id_of_no_targets p oll m rows h2
      refine ⟨fun i r hi _ => by rw [hid]; exact hi, ?_⟩
      rw [hid, hid]
    · have h1' : rows.isEmpty = false := by
        cases hx : rows.isEmpty
        · rfl
        · exact absurd hx h1
      have h2' : (targetRows rows).isEmpty = false := by
        cases hx : (targetRows rows).isEmpty
        · rfl
        · exact absurd hx h2
      have hmap := classify_transactions_eq_map p oll m rows h1' h2'
      constructor
      · intro i r hi hsome
        rw [hmap, List.getElem?_map, hi]
        have ht := isTarget_false_of_isSome r hsome
        show some (applyMap (mapEntries p oll m rows) r) = some r
        rw [applyMap_of_not_target _ r ht]
      · -- every output row is a non-target, so the second run hits the
        -- early return for an empty target set
        have hall : ∀ x ∈ classify_transactions p oll m rows, isTarget x = false := by
          intro x hx
          rw [hmap] at hx
          rcases List.mem_map.mp hx with ⟨r, hr, rfl⟩
          exact isTarget_applyMap_false p oll m rows r hr
        have hempty : (targetRows (classify_transactions p oll m rows)).isEmpty = true := by
          unfold targetRows
          rw [List.isEmpty_iff, List.filter_eq_nil_iff]
          intro a ha
          rw [hall a ha]
          simp
        exact classify_transactions_id_of_no_targets p oll m _ hempty

/-- Concrete instance for C6: a one-row table whose row is already
categorized passes through unchanged, and a second run on the output of a
run is a no-op. -/
theorem classify_transactions_null_to_value_witness :
    (classify_transactions default_patterns (fun _ => "その他") true
        [⟨some "利息", 0, 0, some "その他"⟩])[0]? =
      some ⟨some "利息", 0, 0, some "その他"⟩ ∧
    classify_transactions default_patterns (fun _ => "その他") true
        (classify_transactions default_patterns (fun _ => "その他") true
          [⟨some "利息", 0, 0, some "その他"⟩]) =
      classify_transactions default_patterns (fun _ => "その他") true
        [⟨some "利息", 0, 0, some "その他"⟩] :=
  ⟨(classify_transactions_null_to_value default_patterns (fun _ => "その他") true
      [⟨some "利息", 0, 0, some "その他"⟩]).1 0 ⟨some "利息", 0, 0, some "その他"⟩
      (by decide) (by decide),
   (classify_transactions_null_to_value default_patterns (fun _ => "その他") true
      [⟨some "利息", 0, 0, some "その他"⟩]).2⟩

theorem ollamaLoop_ruleCalls (p : Patterns) (oll : String → String)
    (rows : List TRow) :
    ∀ ds : List String, (ollamaLoop p oll rows ds).2.1 = ds.length := by
  intro ds
  induction ds with
  | nil => rfl
  | cons d ds ih => rw [ollamaLoop_cons]; simp [ih]

/-- The AI-mode loop calls the generative model once per walked
description whose rule category is その他, and never otherwise. -/
theorem ollamaLoop_modelCalls (p : Patterns) (oll : String → String)
    (rows : List TRow) :
    ∀ ds : List String,
      (ollamaLoop p oll rows ds).2.2 =
        (ds.filter (fun d => ruleCategoryFirst p rows d == "その他")).length := by
  intro ds
  induction ds with
  | nil => rfl
  | cons d ds ih =>
    rw [ollamaLoop_cons]
    by_cases h : ruleCategoryFirst p rows d = "その他"
    · simp [List.filter_cons, h, ih]
    · simp [List.filter_cons, h, ih]

theorem ruleLoop_count (p : Patterns) :
    ∀ trs : List TRow, (ruleLoop p trs).2 = trs.length := by
  intro trs
  induction trs with
  | nil => rfl
  | cons r rs ih => rw [ruleLoop_cons]; simp [ih]

theorem applyMap_category_of_target (entries : List (String × String))
    (r : TRow) (ht : isTarget r = true) :
    (applyMap entries r).category = lookupMap entries (r.description.getD "") := by
  unfold applyMap
  rw [if_pos ht]

/-- C7 (amended): in generative mode the loop runs exactly one rule
invocation per distinct target description and at most one model
invocation per distinct target description, and the one decision per
description is fanned out to every target row bearing it; in rule-based
mode the rule engine is instead invoked once per target row (not once per
distinct description), the dictionary still holding one final decision
per description that is fanned out identically. -/
theorem classify_transactions_dedup (p : Patterns) (oll : String → String)
    (rows : List TRow) :
    (ollamaLoop p oll rows (uniqueDescs rows)).2.1 = (uniqueDescs rows).length
    ∧ (ollamaLoop p oll rows (uniqueDescs rows)).2.2 ≤ (uniqueDescs rows).length
    ∧ (ruleLoop p (targetRows rows)).2 = (targetRows rows).length
    ∧ (∀ (m : Bool) (i j : Nat) (ri rj : TRow),
        rows[i]? = some ri → rows[j]? = some rj →
        isTarget ri = true → isTarget rj = true →
        ri.description = rj.description →
        ((classify_transactions p oll m rows)[i]?).map (fun r => r.category) =
          ((classify_transactions p oll m rows)[j]?).map (fun r => r.category)) := by
  refine ⟨ollamaLoop_ruleCalls p oll rows _, ?_, ruleLoop_count p _, ?_⟩
  · rw [ollamaLoop_modelCalls]
    exact List.length_filter_le _ _
  · intro m i j ri rj hi hj hti htj hdesc
    have hri : ri ∈ rows := List.getElem?_mem hi
    have h1' : rows.isEmpty = false := by
      cases hx : rows.isEmpty
      · rfl
      · rw [List.isEmpty_iff] at hx; subst hx; simp at hi
    have h2' : (targetRows rows).isEmpty = false := by
      cases hx : (targetRows rows).isEmpty
      · rfl
      · rw [List.isEmpty_iff] at hx
        have hmem : ri ∈ targetRows rows := List.mem_filter.mpr ⟨hri, hti⟩
        rw [hx] at hmem
        cases hmem
    rw [classify_transactions_eq_map p oll m rows h1' h2',
      List.getElem?_map, List.getElem?_map, hi, hj]
    show some ((applyMap (mapEntries p oll m rows) ri).category) =
      some ((applyMap (mapEntries p oll m rows) rj).category)
    rw [applyMap_category_of_target _ ri hti, applyMap_category_of_target _ rj htj,
      hdesc]

/-- C7, as stated, fails on the rule-based branch: two target rows with
the same description make the loop of lines 140-147 invoke
`classify_by_rules` twice (once per target row), which exceeds the single
distinct description. -/
theorem classify_transactions_dedup_counterexample :
    ¬ ((ruleLoop default_patterns (targetRows
          [⟨some "テスト", 0, 0, none⟩, ⟨some "テスト", 0, 0, none⟩])).2 ≤
        (uniqueDescs
          [⟨some "テスト", 0, 0, none⟩, ⟨some "テスト", 0, 0, none⟩]).length) := by
  decide

/-- Concrete instance for C7 (amended): two rule-mode target rows with one
shared description count two rule invocations, and both receive the same
category. -/
theorem classify_transactions_dedup_witness :
    (ruleLoop default_patterns (targetRows
       [⟨some "ガス代", 100, 0, none⟩, ⟨some "ガス代", 200, 0, none⟩])).2 =
      (targetRows
        [⟨some "ガス代", 100, 0, none⟩, ⟨some "ガス代", 200, 0, none⟩]).length ∧
    ((classify_transactions default_patterns (fun _ => "その他") false
       [⟨some "ガス代", 100, 0, none⟩,
        ⟨some "ガス代", 200, 0, none⟩])[0]?).map (fun r => r.category) =
    ((classify_transactions default_patterns (fun _ => "その他") false
       [⟨some "ガス代", 100, 0, none⟩,
        ⟨some "ガス代", 200, 0, none⟩])[1]?).map (fun r => r.category) := by
  constructor
  · exact (classify_transactions_dedup default_patterns (fun _ => "その他")
      [⟨some "ガス代", 100, 0, none⟩, ⟨some "ガス代", 200, 0, none⟩]).2.2.1
  · exact (classify_transactions_dedup default_patterns (fun _ => "その他")
      [⟨some "ガス代", 100, 0, none⟩, ⟨some "ガス代", 200, 0, none⟩]).2.2.2
      false 0 1 ⟨some "ガス代", 100, 0, none⟩ ⟨some "ガス代", 200, 0, none⟩
      (by decide) (by decide) (by decide) (by decide) (by decide)

/-- C9: in generative mode a target row's category is the rule category
whenever the rule engine does not answer その他 — the generative function
is not consulted for it — and the generative answer exactly when the rule
engine answers その他; the loop's model-invocation count equals the number
of walked descriptions whose rule category is その他. -/
theorem classify_transactions_generative_fallback (p : Patterns)
    (oll : String → String) (rows : List TRow) (i : Nat) (ri : TRow)
    (d : String) (hi : rows[i]? = some ri) (ht : isTarget ri = true)
    (hd : ri.description = some d) :
    ((classify_transactions p oll true rows)[i]? =
      some { ri with category := some (if ruleCategoryFirst p rows d = "その他"
                                       then oll d
                                       else ruleCategoryFirst p rows d) })
    ∧ (ollamaLoop p oll rows (uniqueDescs rows)).2.2 =
        ((uniqueDescs rows).filter
          (fun x => ruleCategoryFirst p rows x == "その他")).length := by
  constructor
  · have hri : ri ∈ rows := List.getElem?_mem hi
    have h1' : rows.isEmpty = false := by
      cases hx : rows.isEmpty
      · rfl
      · rw [List.isEmpty_iff] at hx; subst hx; simp at hi
    have h2' : (targetRows rows).isEmpty = false := by
      cases hx : (targetRows rows).isEmpty
      · rfl
      · rw [List.isEmpty_iff] at hx
        have hmem : ri ∈ targetRows rows := List.mem_filter.mpr ⟨hri, ht⟩
        rw [hx] at hmem
        cases hmem
    have hmem : d ∈ uniqueDescs rows := desc_mem_uniqueDescs rows ri d hri ht hd
    have hlook := lookupMap_ollamaLoop_mem p oll rows d (uniqueDescs rows) hmem
    rw [classify_transactions_eq_map p oll true rows h1' h2',
      List.getElem?_map, hi]
    show some (applyMap (mapEntries p oll true rows) ri) = _
    unfold applyMap
    rw [if_pos ht]
    unfold mapEntries
    rw [if_pos rfl, hd]
    simp only [Option.getD_some]
    rw [hlook]
  · exact ollamaLoop_modelCalls p oll rows (uniqueDescs rows)

/-- Concrete instances for C9: a memo no rule matches is classified by the
generative answer; a memo the rule engine recognizes keeps the rule
category even when the generative function would answer differently. -/
theorem classify_transactions_generative_fallback_witness :
    (classify_transactions default_patterns (fun _ => "贈与疑い") true
       [⟨some "謎の取引", 0, 0, none⟩])[0]? =
      some ⟨some "謎の取引", 0, 0, some "贈与疑い"⟩ ∧
    (classify_transactions default_patterns (fun _ => "その他") true
       [⟨some "ガソリン代", 0, 0, none⟩])[0]? =
      some ⟨some "ガソリン代", 0, 0, some "生活費"⟩ := by
  constructor
  · have h := (classify_transactions_generative_fallback default_patterns
      (fun _ => "贈与疑い") [⟨some "謎の取引", 0, 0, none⟩] 0
      ⟨some "謎の取引", 0, 0, none⟩ "謎の取引" (by decide) (by decide) rfl).1
    rw [h]
    decide
  · have h := (classify_transactions_generative_fallback default_patterns
      (fun _ => "その他") [⟨some "ガソリン代", 0, 0, none⟩] 0
      ⟨some "ガソリン代", 0, 0, none⟩ "ガソリン代" (by decide) (by decide) rfl).1
    rw [h]
    decide

/-- The fixed list `valid_categories` of `call_ollama` (llm_classifier.py
line 182), in source order. -/
def valid_categories : List String := ["生活費", "資産形成", "贈与疑い", "その他"]

/-- `call_ollama` (llm_classifier.py lines 154-192) with the HTTP
boundary abstracted: `none` models any raised transport error (timeout,
connection refusal, JSON decode failure), `some (status, result)` a
completed response with its HTTP status and extracted, stripped
`response`-field text.  A 200 response is post-validated by
substring-matching the four labels in order; everything else degrades to
その他. -/
def call_ollama (resp : Option (Nat × String)) : String :=
  match resp with
  | none => "その他"
  | some (status, result) =>
    if status = 200 then
      match valid_categories.find? (fun cat => strContains result cat) with
      | some cat => cat
      | none => "その他"
    else "その他"

theorem call_ollama_some (status : Nat) (result : String) :
    call_ollama (some (status, result)) =
      (if status = 200 then
        match valid_categories.find? (fun cat => strContains result cat) with
        | some cat => cat
        | none => "その他"
      else "その他") := rfl

theorem call_ollama_200 (result : String) :
    call_ollama (some (200, result)) =
      (if strContains result "生活費" then "生活費"
       else if strContains result "資産形成" then "資産形成"
       else if strContains result "贈与疑い" then "贈与疑い"
       else "その他") := by
  rw [call_ollama_some, if_pos rfl]
  unfold valid_categories
  cases h1 : strContains result "生活費" <;>
    cases h2 : strContains result "資産形成" <;>
      cases h3 : strContains result "贈与疑い" <;>
        cases h4 : strContains result "その他" <;>
          simp [List.find?, h1, h2, h3, h4]

/-- C8: `call_ollama` is total and always lands in the four labels:
transport failure, a non-200 status, and a 200 response containing no
label all degrade to その他, and a 200 response is mapped to the first
contained label in the fixed order 生活費, 資産形成, 贈与疑い, その他. -/
theorem call_ollama_total (resp : Option (Nat × String)) :
    (call_ollama resp ∈ valid_categories)
    ∧ (resp = none → call_ollama resp = "その他")
    ∧ (∀ status result, resp = some (status, result) → status ≠ 200 →
        call_ollama resp = "その他")
    ∧ (∀ result, resp = some (200, result) →
        call_ollama resp =
          (if strContains result "生活費" then "生活費"
           else if strContains result "資産形成" then "資産形成"
           else if strContains result "贈与疑い" then "贈与疑い"
           else "その他")) := by
  refine ⟨?_, ?_, ?_, ?_⟩
  · match resp with
    | none => decide
    | some (status, result) =>
      by_cases hs : status = 200
      · subst hs
        rw [call_ollama_200]
        split
        · decide
        · split
          · decide
          · split
            · decide
            · decide
      · rw [call_ollama_some, if_neg hs]
        decide
  · intro h
    subst h
    rfl
  · intro status result h hne
    subst h
    rw [call_ollama_some, if_neg hne]
  · intro result h
    subst h
    exact call_ollama_200 result

/-- Concrete instances for C8: a transport error, a 500 status whose body
even contains a label, and a 200 response naming 贈与疑い. -/
theorem call_ollama_total_witness :
    call_ollama none = "その他" ∧
    call_ollama (some (500, "生活費")) = "その他" ∧
    call_ollama (some (200, "カテゴリ: 贈与疑い")) =
      (if strContains "カテゴリ: 贈与疑い" "生活費" then "生活費"
       else if strContains "カテゴリ: 贈与疑い" "資産形成" then "資産形成"
       else if strContains "カテゴリ: 贈与疑い" "贈与疑い" then "贈与疑い"
       else "その他") := by
  refine ⟨(call_ollama_total none).2.1 rfl, ?_, ?_⟩
  · exact (call_ollama_total (some (500, "生活費"))).2.2.1 500 "生活費" rfl
      (by decide)
  · exact (call_ollama_total (some (200, "カテゴリ: 贈与疑い"))).2.2.2
      "カテゴリ: 贈与疑い" rfl

end BankAnalyzer
